import Mathlib

/-!
Verification of the amongo wire-protocol core against its specification.

The development shallowly embeds the Python source of the `amongo` MongoDB
driver (files `amongo/connection.py`, `amongo/cursor.py`,
`amongo/collection.py`, `amongo/core/compressors.py`, `amongo/core/models.py`)
into Lean.  Bytes are natural numbers below 256, BSON documents are
association lists, Python exceptions become an explicit error type, and the
mutation of Python dictionaries is made visible by returning the final state
of the mutated dictionary next to the usual return value.  The BSON codec
itself is an external library in the source (`bson.encode`, `bson.decode`,
`bson.decode_all`); it is modelled here by a concrete, executable
length-prefixed codec with the same framing contract (a document starts with
a 4-byte little-endian total length and ends with a zero byte, and
`decode_all` consumes a concatenation of such documents, failing on
malformed trailing bytes).
-/

namespace Amongo

/-- Bytes are modelled as natural numbers; writers reduce modulo 256. -/
abbrev Byte := Nat

/-- Model of the BSON values the driver manipulates: null, 32-bit integers,
UTF-8 strings, arrays and embedded documents. -/
inductive BVal where
  | vNull : BVal
  | vInt : Int → BVal
  | vStr : String → BVal
  | vArr : List BVal → BVal
  | vDoc : List (String × BVal) → BVal
deriving Repr

/-- Association-list model of a Python dict holding a BSON document. -/
abbrev BDoc := List (String × BVal)

/-- Little-endian 4-byte encoding of a natural number, as `struct.pack` with
format `<I` (and, for values below 2^31, `<i`) produces. -/
def u32le (n : Nat) : List Byte :=
  [n % 256, n / 256 % 256, n / 65536 % 256, n / 16777216 % 256]

/-- Little-endian value of a byte string, as `struct.unpack` reads it. -/
def leNat (bs : List Byte) : Nat :=
  bs.foldr (fun b acc => b % 256 + 256 * acc) 0

/-- Signed 32-bit reading of 4 bytes, as `struct.unpack` with format `<i`. -/
def i32ofBytes (bs : List Byte) : Int :=
  let n := leNat bs
  if n < 2 ^ 31 then (n : Int) else (n : Int) - 2 ^ 32

/-- UTF-8 encoding of one character (standard 1- to 4-byte forms). -/
def charUtf8 (c : Char) : List Byte :=
  let n := c.toNat
  if n < 128 then [n]
  else if n < 2048 then [192 + n / 64, 128 + n % 64]
  else if n < 65536 then [224 + n / 4096, 128 + n / 64 % 64, 128 + n % 64]
  else [240 + n / 262144, 128 + n / 4096 % 64, 128 + n / 64 % 64, 128 + n % 64]

/-- UTF-8 bytes of a string, as `str.encode` produces. -/
def strUtf8 (s : String) : List Byte :=
  (s.data.map charUtf8).flatten

/-- Check for a UTF-8 continuation byte. -/
def isCont (b : Byte) : Bool := 128 ≤ b ∧ b < 192

/-- UTF-8 decoding of a byte string into characters, with the standard
validity checks (continuation bytes, no overlong forms, no surrogates,
maximal code point); `none` on any violation. -/
def utf8DecodeChars : List Byte → Option (List Char)
  | [] => some []
  | b :: rest =>
    if b < 128 then
      match utf8DecodeChars rest with
      | some cs => some (Char.ofNat b :: cs)
      | none => none
    else if 192 ≤ b ∧ b < 224 then
      match rest with
      | [] => none
      | b1 :: rest2 =>
        if isCont b1 then
          let n := (b - 192) * 64 + (b1 - 128)
          if 128 ≤ n then
            match utf8DecodeChars rest2 with
            | some cs => some (Char.ofNat n :: cs)
            | none => none
          else none
        else none
    else if 224 ≤ b ∧ b < 240 then
      match rest with
      | b1 :: b2 :: rest2 =>
        if isCont b1 ∧ isCont b2 then
          let n := (b - 224) * 4096 + (b1 - 128) * 64 + (b2 - 128)
          if 2048 ≤ n ∧ (n < 55296 ∨ 57343 < n) then
            match utf8DecodeChars rest2 with
            | some cs => some (Char.ofNat n :: cs)
            | none => none
          else none
        else none
      | _ => none
    else if 240 ≤ b ∧ b < 248 then
      match rest with
      | b1 :: b2 :: b3 :: rest2 =>
        if isCont b1 ∧ isCont b2 ∧ isCont b3 then
          let n := (b - 240) * 262144 + (b1 - 128) * 4096 + (b2 - 128) * 64 + (b3 - 128)
          if 65536 ≤ n ∧ n < 1114112 then
            match utf8DecodeChars rest2 with
            | some cs => some (Char.ofNat n :: cs)
            | none => none
          else none
        else none
      | _ => none
    else none

/-- UTF-8 decoding of a byte string, as `bytes.decode` performs; `none`
models a UnicodeDecodeError. -/
def utf8Decode (bs : List Byte) : Option String :=
  match utf8DecodeChars bs with
  | some cs => some (String.mk cs)
  | none => none

/-- BSON element tag used by the model codec for each kind of value. -/
def bsonTag : BVal → Byte
  | .vNull => 10
  | .vInt _ => 16
  | .vStr _ => 2
  | .vArr _ => 4
  | .vDoc _ => 3

mutual

/-- Model encoding of one BSON value (the bytes following its tag and name). -/
def encodeVal : BVal → List Byte
  | .vNull => []
  | .vInt i => u32le ((i % (2 : Int) ^ 32).toNat)
  | .vStr s => u32le ((strUtf8 s).length + 1) ++ strUtf8 s ++ [0]
  | .vArr l => u32le (sizeArrElems l + 5) ++ encodeArrElems l ++ [0]
  | .vDoc d => u32le (sizeFields d + 5) ++ encodeFields d ++ [0]

/-- Model encoding of the elements of a BSON array (empty element names). -/
def encodeArrElems : List BVal → List Byte
  | [] => []
  | v :: vs => bsonTag v :: 0 :: (encodeVal v ++ encodeArrElems vs)

/-- Model encoding of the field list of a BSON document. -/
def encodeFields : List (String × BVal) → List Byte
  | [] => []
  | (k, v) :: fs => bsonTag v :: (strUtf8 k ++ [0] ++ encodeVal v ++ encodeFields fs)

/-- Byte size of the encoded elements of an array. -/
def sizeArrElems : List BVal → Nat
  | [] => 0
  | v :: vs => 2 + (encodeVal v).length + sizeArrElems vs

/-- Byte size of the encoded field list of a document. -/
def sizeFields : List (String × BVal) → Nat
  | [] => 0
  | (k, v) :: fs => 1 + ((strUtf8 k).length + 1) + (encodeVal v).length + sizeFields fs

end

/-- Model of `bson.encode` on a document: 4-byte total length, the encoded
fields, and a terminating zero byte. -/
def encodeDoc (d : BDoc) : List Byte :=
  u32le (sizeFields d + 5) ++ encodeFields d ++ [0]

/-- Model of `bson_dumps` (`connection.py` line 32): encode a document. -/
def bsonDumps (d : BDoc) : List Byte := encodeDoc d

/-- Python exceptions raised by the embedded code. -/
inductive PyErr where
  | keyError : String → PyErr
  | typeError : PyErr
  | structError : PyErr
  | valueError : PyErr
  | runtimeError : PyErr
  | notImplementedError : PyErr
  | invalidBson : PyErr
  | unicodeDecodeError : PyErr
  | importError : PyErr
  | indexError : PyErr
  | incompleteReadError : PyErr
  | cursorIsEmptyError : PyErr
  | databaseError : BDoc → PyErr
  | nonTermination : PyErr
  | fuelExhausted : PyErr
deriving Repr

/-- Lookup in a Python dict modelled as an association list (`d.get(k)`). -/
def dictGet (d : BDoc) (k : String) : Option BVal :=
  match d with
  | [] => none
  | (k2, v) :: rest => if k2 = k then some v else dictGet rest k

/-- Subscript access `d[k]`, raising KeyError when the key is absent. -/
def pyGetItem (d : BDoc) (k : String) : Except PyErr BVal :=
  match dictGet d k with
  | some v => .ok v
  | none => .error (.keyError k)

/-- Model of `d.pop(k)`: the removed value and the dict without the key,
or `none` (a KeyError) when the key is absent. -/
def dictPop (d : BDoc) (k : String) : Option (BVal × BDoc) :=
  match d with
  | [] => none
  | (k2, v) :: rest =>
    if k2 = k then some (v, rest)
    else match dictPop rest k with
      | some (v2, rest2) => some (v2, (k2, v) :: rest2)
      | none => none

/-- Model of the assignment `d[k] = v`: replace the first binding of `k`,
or append a new binding when the key is absent. -/
def dictSet (d : BDoc) (k : String) (v : BVal) : BDoc :=
  match d with
  | [] => [(k, v)]
  | (k2, v2) :: rest =>
    if k2 = k then (k2, v) :: rest else (k2, v2) :: dictSet rest k v

/-- Split a byte string at its first zero byte (a C-string and the rest);
`none` when no terminator exists. -/
def splitCString : List Byte → Option (List Byte × List Byte)
  | [] => none
  | b :: rest =>
    if b = 0 then some ([], rest)
    else match splitCString rest with
      | some (s, r) => some (b :: s, r)
      | none => none

mutual

/-- Model decoding of the field list of a document, up to and including the
terminating zero tag; returns the fields and the bytes after the terminator.
The `fuel` argument makes the recursion structural; it is always given at
least the length of the input, which one step of the loop strictly shrinks. -/
def decodeFields (fuel : Nat) (bs : List Byte) :
    Except PyErr (List (String × BVal) × List Byte) :=
  match fuel with
  | 0 => .error .fuelExhausted
  | fuel + 1 =>
    match bs with
    | [] => .error .invalidBson
    | tag :: rest =>
      if tag = 0 then .ok ([], rest)
      else
        match splitCString rest with
        | none => .error .invalidBson
        | some (kb, rest2) =>
          match utf8Decode kb with
          | none => .error .invalidBson
          | some k =>
            match decodeValWith fuel tag rest2 with
            | .error e => .error e
            | .ok (v, rest3) =>
              match decodeFields fuel rest3 with
              | .error e => .error e
              | .ok (fs, rest4) => .ok ((k, v) :: fs, rest4)

/-- Model decoding of one value given its element tag. -/
def decodeValWith (fuel : Nat) (tag : Byte) (bs : List Byte) :
    Except PyErr (BVal × List Byte) :=
  match fuel with
  | 0 => .error .fuelExhausted
  | fuel + 1 =>
    if tag = 10 then .ok (.vNull, bs)
    else if tag = 16 then
      if 4 ≤ bs.length then .ok (.vInt (i32ofBytes (bs.take 4)), bs.drop 4)
      else .error .invalidBson
    else if tag = 2 then
      if 4 ≤ bs.length then
        let len := leNat (bs.take 4)
        let body := (bs.drop 4).take len
        if body.length = len ∧ 1 ≤ len ∧ body.getLast? = some 0 then
          match utf8Decode (body.take (len - 1)) with
          | some s => .ok (.vStr s, (bs.drop 4).drop len)
          | none => .error .invalidBson
        else .error .invalidBson
      else .error .invalidBson
    else if tag = 3 then
      match decodeDocF fuel bs with
      | .error e => .error e
      | .ok (d, rest) => .ok (.vDoc d, rest)
    else if tag = 4 then
      match decodeDocF fuel bs with
      | .error e => .error e
      | .ok (d, rest) => .ok (.vArr (d.map Prod.snd), rest)
    else .error .invalidBson

/-- Model decoding of one length-prefixed document: reads the 4-byte total
length, checks the final zero byte, decodes the fields, and returns the
bytes after the document.  Mirrors the checks `pymongo` performs (at least
5 bytes, length within the buffer, terminator present). -/
def decodeDocF (fuel : Nat) (bs : List Byte) :
    Except PyErr (List (String × BVal) × List Byte) :=
  match fuel with
  | 0 => .error .fuelExhausted
  | fuel + 1 =>
    if 5 ≤ bs.length then
      let objSize := i32ofBytes (bs.take 4)
      if 5 ≤ objSize ∧ objSize ≤ (bs.length : Int) then
        let inner := (bs.take objSize.toNat).drop 4
        match decodeFields fuel inner with
        | .error e => .error e
        | .ok (fs, rest) =>
          if rest = [] then .ok (fs, bs.drop objSize.toNat)
          else .error .invalidBson
      else .error .invalidBson
    else .error .invalidBson

end

/-- Model of `bson_loads` / `bson.decode` (`connection.py` line 44): decode
one document from the front of the bytes, ignoring any trailing bytes. -/
def bsonLoads (bs : List Byte) : Except PyErr BDoc :=
  match decodeDocF (bs.length + 1) bs with
  | .error e => .error e
  | .ok (d, _) => .ok d

/-- Inner loop of the model of `bson.decode_all`, with structural fuel. -/
def decodeAllF (fuel : Nat) (bs : List Byte) : Except PyErr (List BDoc) :=
  match fuel with
  | 0 => .error .fuelExhausted
  | fuel + 1 =>
    match bs with
    | [] => .ok []
    | _ =>
      match decodeDocF (bs.length + 1) bs with
      | .error e => .error e
      | .ok (d, rest) =>
        match decodeAllF fuel rest with
        | .error e => .error e
        | .ok ds => .ok (d :: ds)

/-- Model of `bson.decode_all`: decode a concatenation of documents,
failing when the bytes are not exactly such a concatenation. -/
def decodeAll (bs : List Byte) : Except PyErr (List BDoc) :=
  decodeAllF (bs.length + 1) bs

/-- Encoding of one element of the popped list (`bson_dumps(arr[idx])`,
`connection.py` line 92): `bson.encode` accepts only mappings. -/
def bsonDumpsVal : BVal → Except PyErr (List Byte)
  | .vDoc d => .ok (bsonDumps d)
  | _ => .error .typeError

/-- Inner `while` loop of `make_data` (`connection.py` lines 91-96): starting
from the remaining suffix of `arr` and the current value of the running index
`idx`, collect the documents written into the current Type-1 section.  Each
iteration consumes one document, increments `idx`, and breaks as soon as
`idx >= max_write_batch_size` — the comparison is against the running index
into the whole list, exactly as in the source.  Returns the batch, the final
index, and the unconsumed suffix. -/
def innerLoop (maxB : Nat) : List BVal → Nat → List BVal × Nat × List BVal
  | [], idx => ([], idx, [])
  | doc :: rest, idx =>
    let idx2 := idx + 1
    if maxB ≤ idx2 then ([doc], idx2, rest)
    else
      let r := innerLoop maxB rest idx2
      (doc :: r.1, r.2.1, r.2.2)

/-- Outer `while` loop of `make_data` (`connection.py` lines 82-99): one
Type-1 section per iteration while input remains.  The structural fuel is
the length of the list; each iteration consumes at least one document, so
the fuel never runs out (see `sectionsGo_join`). -/
def sectionsGo (maxB : Nat) : Nat → List BVal → Nat → List (List BVal)
  | 0, _, _ => []
  | _ + 1, [], _ => []
  | fuel + 1, doc :: rest, idx =>
    let r := innerLoop maxB (doc :: rest) idx
    r.1 :: sectionsGo maxB fuel r.2.2 r.2.1

/-- Partition of the popped document list into the Type-1 sections that
`make_data` emits, in order. -/
def makeDataSections (arr : List BVal) (maxB : Nat) : List (List BVal) :=
  sectionsGo maxB arr.length arr 0

/-- Bytes of one Type-1 section (`connection.py` lines 84-99): kind byte 1,
a size covering the size field itself, the identifier as a C-string, then
the batch documents back to back. -/
def sectionBytes (listKey : String) (batch : List BVal) : Except PyErr (List Byte) :=
  match batch.mapM bsonDumpsVal with
  | .error e => .error e
  | .ok docBytes =>
    let sw := strUtf8 listKey ++ [0] ++ docBytes.flatten
    .ok (1 :: (u32le (sw.length + 4) ++ sw))

/-- Model of `make_data` (`connection.py` lines 56-101).  The Python function
mutates its `data` argument (it pops `list_key`) and returns a byte buffer;
the model returns the buffer (or the raised exception) together with the
final state of the caller's dictionary. -/
def makeData (data : BDoc) (maxWriteBatchSize : Nat) (flags : Nat)
    (listKey : Option String) : Except PyErr (List Byte) × BDoc :=
  match listKey with
  | none => (.ok (u32le flags ++ 0 :: encodeDoc data), data)
  | some k =>
    match dictPop data k with
    | none => (.error (.keyError k), data)
    | some (arrVal, data2) =>
      let headBytes := u32le flags ++ 0 :: encodeDoc data2
      match arrVal with
      | .vNull => (.ok headBytes, data2)
      | .vArr arr =>
        match (makeDataSections arr maxWriteBatchSize).mapM (sectionBytes k) with
        | .error e => (.error e, data2)
        | .ok secs => (.ok (headBytes ++ secs.flatten), data2)
      | _ => (.error .typeError, data2)

/-- Model of `BytesIO.read(n)` for a possibly signed count: a negative count
reads everything, otherwise at most `n` bytes (clamped at end of buffer). -/
def pyRead (bs : List Byte) (n : Int) : List Byte :=
  if n < 0 then bs else bs.take n.toNat

/-- Known OP_MSG flag bits (`core/models.py` lines 14-17): bit 0
`checksum_present`, bit 1 `more_to_come`, bit 16 `exhaust_allowed`. -/
def flagsAll : Nat := 1 ||| 2 ||| 65536

/-- Condition of `Flags.verify` (`core/models.py` line 33): some bit outside
`Flags.all` is set in the 32-bit flag word. -/
def flagsUnknownBitSet (bits : Nat) : Bool :=
  bits &&& (4294967295 - flagsAll) ≠ 0

/-- Truthiness of a value obtained by `body.get(string) is None`: the key is
absent or bound to Python `None`. -/
def pyGetIsNone (d : BDoc) (k : String) : Bool :=
  match dictGet d k with
  | none => true
  | some .vNull => true
  | some _ => false

/-- Section-scanning loop of `parse_data` (`connection.py` lines 167-207),
one iteration per kind byte.  The structural fuel only bounds the number of
iterations; every iteration consumes at least the kind byte, so fuel equal
to the number of remaining bytes plus one never runs out.

Kind 0 (Body): peek a signed 4-byte BSON length, re-read that many bytes
from the length prefix on (`reader.seek(-4)`), and decode them; a second
body raises NotImplementedError.  Kind 1 (Document Sequence): read a signed
4-byte size, a C-string identifier, then `size - len(identifier) - 1` bytes
(exactly the expression in the source, which does not subtract the 4 bytes
of the size field itself), decode them with `decode_all`, and extend a
fresh list that is installed in the body only when the identifier is absent
(or `None`) there.  Any other kind byte matches no branch and the loop
continues with the next byte. -/
def scanGo (oldBody : Option BDoc) : Nat → List Byte → Except PyErr (Option BDoc)
  | 0, _ => .error .fuelExhausted
  | _ + 1, [] => .ok oldBody
  | fuel + 1, kind :: rest =>
    if kind = 0 then
      match oldBody with
      | some _ => .error .notImplementedError
      | none =>
        if 4 ≤ rest.length then
          let lenI := i32ofBytes (rest.take 4)
          let chunk := pyRead rest lenI
          match bsonLoads chunk with
          | .error e => .error e
          | .ok d => scanGo (some d) fuel (rest.drop chunk.length)
        else .error .structError
    else if kind = 1 then
      match oldBody with
      | none => .error .runtimeError
      | some b =>
        if 4 ≤ rest.length then
          let size := i32ofBytes (rest.take 4)
          match splitCString (rest.drop 4) with
          | none => .error .nonTermination
          | some (sb, afterStr) =>
            match utf8Decode sb with
            | none => .error .unicodeDecodeError
            | some ident =>
              let chunk := pyRead afterStr (size - (sb.length : Int) - 1)
              match decodeAll chunk with
              | .error e => .error e
              | .ok docs =>
                let b2 :=
                  if pyGetIsNone b ident then
                    dictSet b ident (.vArr (docs.map .vDoc))
                  else b
                scanGo (some b2) fuel (afterStr.drop chunk.length)
        else .error .structError
    else scanGo oldBody fuel rest

/-- Model of `parse_data` (`connection.py` lines 122-209) on the payload of
an uncompressed OP_MSG (the bytes after the 16-byte header): read and verify
the 4-byte flag word, then scan the sections.  The OP_COMPRESSED branch and
the opcode check live upstream of this payload processing and are not
exercised by the properties below.  The result is the accumulated body,
which is `None` when the payload holds no body section. -/
def parseData (data : List Byte) : Except PyErr (Option BDoc) :=
  if 4 ≤ data.length then
    let flagsBits := leNat (data.take 4)
    if flagsUnknownBitSet flagsBits then .error .valueError
    else scanGo none (data.length + 1) (data.drop 4)
  else .error .structError

/-- Python truthiness of a BSON value, as used by `if value:`. -/
def truthy : BVal → Bool
  | .vNull => false
  | .vInt i => i ≠ 0
  | .vStr s => s ≠ ""
  | .vArr l => !l.isEmpty
  | .vDoc d => !d.isEmpty

/-- Truthiness of `d.get(k)` (a missing key yields `None`, which is falsy). -/
def truthyGet (d : BDoc) (k : String) : Bool :=
  match dictGet d k with
  | none => false
  | some v => truthy v

/-- Model of `Cursor.__init__` (`cursor.py` lines 26-38): build the internal
cursor dict from the `cursor` field of a `find` reply, renaming `firstBatch`
to `nextBatch`.  Missing keys raise KeyError. -/
def cursorInit (reply : BDoc) : Except PyErr BDoc :=
  match pyGetItem reply "cursor" with
  | .error e => .error e
  | .ok (.vDoc cd) =>
    match pyGetItem cd "id", pyGetItem cd "firstBatch", pyGetItem cd "ns" with
    | .ok idv, .ok fb, .ok nsv =>
      .ok [("id", idv), ("nextBatch", fb), ("ns", nsv)]
    | .error e, _, _ => .error e
    | _, .error e, _ => .error e
    | _, _, .error e => .error e
  | .ok _ => .error .typeError

/-- Loop of `Cursor.next` (`cursor.py` lines 55-76), one iteration per unit
of fuel.  The `while` guard is the truthiness of `cursor.get("nextBatch")`;
when it holds, the inner `if cursor["nextBatch"]:` pops the front of the
batch; otherwise (only reachable when the guard and the inner condition
could differ) a `getMore` command is sent through `oracle` — modelling
`_send_and_wait` — and the raw reply replaces the whole cursor dict.  When
the guard fails the loop exits and CursorIsEmptyError is raised. -/
def cursorNextGo (oracle : BVal → BVal → BDoc) : Nat → BDoc → Except PyErr (BVal × BDoc)
  | 0, _ => .error .fuelExhausted
  | fuel + 1, cur =>
    if truthyGet cur "nextBatch" then
      match pyGetItem cur "nextBatch" with
      | .error e => .error e
      | .ok v =>
        if truthy v then
          match v with
          | .vArr (x :: xs) => .ok (x, dictSet cur "nextBatch" (.vArr xs))
          | .vArr [] => .error .indexError
          | _ => .error .typeError
        else
          match pyGetItem cur "id", pyGetItem cur "ns" with
          | .ok idv, .ok nsv => cursorNextGo oracle fuel (oracle idv nsv)
          | .error e, _ => .error e
          | _, .error e => .error e
    else .error .cursorIsEmptyError

/-- Comparison `value != 1` on a BSON value (the server sends the numeric
status 1; the model uses integers for the numeric type). -/
def bvalNeOne : BVal → Bool
  | .vInt i => i ≠ 1
  | _ => true

/-- Model of the `ok`-field test `result["ok"] != 1` evaluating to true:
the key is present and its value differs from 1. -/
def okNotOne (reply : BDoc) : Bool :=
  match dictGet reply "ok" with
  | some v => bvalNeOne v
  | none => false

/-- Model of `DeleteResult` (`core/results.py` lines 23-43). -/
structure DeleteResult where
  ok : Bool
  n : BVal
  writeErrors : BVal
  writeConcernError : BVal

/-- Model of `DeleteResult.from_response` (`core/results.py` lines 36-43):
`n` is a mandatory key, the error fields default to empty. -/
def deleteResultFromResponse (reply : BDoc) : Except PyErr DeleteResult :=
  match pyGetItem reply "ok", pyGetItem reply "n" with
  | .ok okv, .ok nv =>
    .ok { ok := !bvalNeOne okv
        , n := nv
        , writeErrors := (dictGet reply "writeErrors").getD (.vArr [])
        , writeConcernError := (dictGet reply "writeConcernError").getD (.vDoc []) }
  | .error e, _ => .error e
  | _, .error e => .error e

/-- Reply handling of `Collection.delete` (`collection.py` lines 118-123):
raise `DatabaseError(reply)` when `reply["ok"] != 1`, otherwise build a
`DeleteResult`. -/
def deleteRespond (reply : BDoc) : Except PyErr DeleteResult :=
  match pyGetItem reply "ok" with
  | .error e => .error e
  | .ok okv =>
    if bvalNeOne okv then .error (.databaseError reply)
    else deleteResultFromResponse reply

/-- Reply handling of `Collection.drop` (`collection.py` lines 72-81). -/
def dropRespond (reply : BDoc) : Except PyErr Unit :=
  match pyGetItem reply "ok" with
  | .error e => .error e
  | .ok okv =>
    if bvalNeOne okv then .error (.databaseError reply) else .ok ()

/-- Reply handling of `Collection.rename` (`collection.py` lines 65-70). -/
def renameRespond (reply : BDoc) : Except PyErr Unit :=
  match pyGetItem reply "ok" with
  | .error e => .error e
  | .ok okv =>
    if bvalNeOne okv then .error (.databaseError reply) else .ok ()

/-- Reply handling of `Collection.insert_many` (`collection.py` lines
136-152): return `reply["n"]` directly — the source contains no check of
the `ok` field on this path. -/
def insertManyRespond (reply : BDoc) : Except PyErr BVal :=
  pyGetItem reply "n"

/-- Reply handling of `Collection.find` (`collection.py` lines 165-202):
construct a `Cursor` from the reply — the source contains no check of the
`ok` field on this path. -/
def findRespond (reply : BDoc) : Except PyErr BDoc :=
  cursorInit reply

/-- Predicate distinguishing a raised `DatabaseError` from every other
outcome of a command (a normal return, a KeyError, a TypeError, ...). -/
def raisesDatabaseError {α : Type} : Except PyErr α → Bool
  | .error (.databaseError _) => true
  | _ => false

/-- Compressor implementations of `core/compressors.py`. -/
inductive CompressorKind where
  | snappy : CompressorKind
  | zstd : CompressorKind
  | zlib : CompressorKind
  | noop : CompressorKind
deriving Repr, DecidableEq

/-- Runtime environment of the compressor module: which optional libraries
are importable (`core/compressors.py` lines 9-15). -/
structure CompressorEnv where
  snappyInstalled : Bool
  zstdInstalled : Bool

/-- Model of the `available` classmethods (`core/compressors.py` lines
22-29, 69-71, 102-104): `noop` and `zlib` are always available, `snappy`
and `zstd` only when their library is importable. -/
def compressorAvailable (env : CompressorEnv) : CompressorKind → Bool
  | .snappy => env.snappyInstalled
  | .zstd => env.zstdInstalled
  | .zlib => true
  | .noop => true

/-- Model of `compression_registry` (`core/compressors.py` lines 122-127),
in insertion order. -/
def compressionRegistry : List (String × CompressorKind × Nat) :=
  [("snappy", (.snappy, 1)), ("zstd", (.zstd, 3)),
   ("zlib", (.zlib, 2)), ("noop", (.noop, 0))]

/-- Membership test and lookup `compression_registry[name]`. -/
def registryLookup (name : String) : Option (CompressorKind × Nat) :=
  match compressionRegistry.find? (fun p => p.1 = name) with
  | some p => some p.2
  | none => none

/-- Model of `pick_compressor` (`core/compressors.py` lines 132-145): walk
the server-supported names in order and return the registry entry of the
first name present in `compression_registry`; fall back to `(noop, 0)`. -/
def pickCompressor : List String → CompressorKind × Nat
  | [] => (.noop, 0)
  | name :: rest =>
    match registryLookup name with
    | some entry => entry
    | none => pickCompressor rest

/-- Observable actions of one `_send_and_wait` call, in program order:
writing the encoded request to the socket (`_send`, `connection.py` lines
307-309), inserting the waiter future into `self._waiters`
(`_wait_for_response`, line 273), awaiting that future (line 274), and
decoding the reply (`parse_data`, line 287). -/
inductive WireEvent where
  | writeRequest : Int → WireEvent
  | insertWaiter : Int → WireEvent
  | awaitReply : Int → WireEvent
  | decodeReply : Int → WireEvent
deriving Repr, DecidableEq

/-- Event trace of `Connection._send` for one request id: the request bytes
are written to the socket and flushed. -/
def sendEvents (rid : Int) : List WireEvent := [.writeRequest rid]

/-- Event trace of `Connection._wait_for_response` (`connection.py` lines
271-274): create a future, insert it into the waiters map, await it. -/
def waitForResponseEvents (rid : Int) : List WireEvent :=
  [.insertWaiter rid, .awaitReply rid]

/-- Event trace of `Connection._send_and_wait` (`connection.py` lines
276-287): `await self._send(...)` runs to completion first, then
`self._wait_for_response(header.request_id)` is awaited, then the completed
item is decoded by `parse_data`. -/
def sendAndWaitEvents (rid : Int) : List WireEvent :=
  sendEvents rid ++ waitForResponseEvents rid ++ [.decodeReply rid]

/-- Position of the waiter insertion for `rid` in a trace. -/
def insertWaiterPos (evs : List WireEvent) (rid : Int) : Nat :=
  evs.findIdx (fun e => e = .insertWaiter rid)

/-- Position of the first socket write for `rid` in a trace. -/
def writeRequestPos (evs : List WireEvent) (rid : Int) : Nat :=
  evs.findIdx (fun e => e = .writeRequest rid)

/-- Header of a wire message (`core/models.py` lines 39-43). -/
structure MessageHeader where
  messageLength : Int
  requestId : Int
  responseTo : Int
  opcode : Int
deriving Repr, DecidableEq

/-- One parsed message: header plus raw payload (`core/models.py` 46-48). -/
structure WireItem where
  header : MessageHeader
  data : List Byte
deriving Repr, DecidableEq

/-- Fate of a waiter in the ledger of all waiters ever registered: still
pending (present in `self._waiters`), completed by the reader with a raw
item, or failed with an error.  The source has no code path producing
`failed`; the constructor exists so the specified fan-out of connection
errors is expressible. -/
inductive WaiterOutcome where
  | pending : WaiterOutcome
  | completed : WireItem → WaiterOutcome
  | failed : PyErr → WaiterOutcome
deriving Repr

/-- One iteration of the reader loop on a successfully parsed item
(`connection.py` lines 268-269): `self._waiters.pop(response_to, None)`
removes the matching pending waiter and `set_result` completes it; waiters
that are not pending are no longer in the dict and are untouched. -/
def readerStep (ws : List (Int × WaiterOutcome)) (item : WireItem) :
    List (Int × WaiterOutcome) :=
  ws.map (fun p =>
    match p.2 with
    | .pending =>
      if p.1 = item.header.responseTo then (p.1, .completed item) else p
    | _ => p)

/-- Model of `Connection._keep_reading` (`connection.py` lines 264-269) run
against a prefix of the incoming read results: each element of the stream
is either a parsed `WireItem` or the exception `parse_header` raised
(socket error, unexpected EOF).  The loop has no exception handling: the
first error propagates out of the coroutine, terminating the task with that
error while leaving the waiter ledger exactly as it was.  The result is the
final ledger and the error that terminated the task, if any. -/
def keepReading : List (Except PyErr WireItem) → List (Int × WaiterOutcome) →
    List (Int × WaiterOutcome) × Option PyErr
  | [], ws => (ws, none)
  | .error e :: _, ws => (ws, some e)
  | .ok item :: rest, ws => keepReading rest (readerStep ws item)

/-! Helper lemmas about the batching loops of `make_data`. -/

theorem innerLoop_length_le (maxB : Nat) (l : List BVal) : ∀ idx : Nat,
    ((innerLoop maxB l idx).1).length ≤ max 1 (maxB - idx) := by
  induction l with
  | nil => intro idx; simp [innerLoop]
  | cons doc rest ih =>
    intro idx
    simp only [innerLoop]
    by_cases h : maxB ≤ idx + 1
    · rw [if_pos h]; simp
    · rw [if_neg h]
      have h2 := ih (idx + 1)
      simp only [List.length_cons]
      omega

theorem innerLoop_length_le_maxB (maxB : Nat) (h : 1 ≤ maxB) (l : List BVal)
    (idx : Nat) : ((innerLoop maxB l idx).1).length ≤ maxB := by
  have h2 := innerLoop_length_le maxB l idx
  omega

theorem innerLoop_append (maxB : Nat) (l : List BVal) : ∀ idx : Nat,
    (innerLoop maxB l idx).1 ++ (innerLoop maxB l idx).2.2 = l := by
  induction l with
  | nil => intro idx; simp [innerLoop]
  | cons doc rest ih =>
    intro idx
    simp only [innerLoop]
    by_cases h : maxB ≤ idx + 1
    · rw [if_pos h]; simp
    · rw [if_neg h]
      simpa using ih (idx + 1)

theorem innerLoop_rem_lt (maxB : Nat) (l : List BVal) (idx : Nat) (hne : l ≠ []) :
    ((innerLoop maxB l idx).2.2).length < l.length := by
  cases l with
  | nil => exact absurd rfl hne
  | cons doc rest =>
    simp only [innerLoop]
    by_cases h : maxB ≤ idx + 1
    · rw [if_pos h]; simp
    · rw [if_neg h]
      have h2 := congrArg List.length (innerLoop_append maxB rest (idx + 1))
      simp only [List.length_append] at h2
      simp only [List.length_cons]
      omega

theorem sectionsGo_flatten (maxB : Nat) : ∀ (fuel : Nat) (rem : List BVal) (idx : Nat),
    rem.length ≤ fuel → (sectionsGo maxB fuel rem idx).flatten = rem := by
  intro fuel
  induction fuel with
  | zero =>
    intro rem idx hlen
    have : rem = [] := List.length_eq_zero.mp (Nat.le_zero.mp hlen)
    subst this
    simp [sectionsGo]
  | succ fuel ih =>
    intro rem idx hlen
    cases rem with
    | nil => simp [sectionsGo]
    | cons doc rest =>
      simp only [sectionsGo, List.flatten_cons]
      have hlt := innerLoop_rem_lt maxB (doc :: rest) idx (by simp)
      have hrec := ih ((innerLoop maxB (doc :: rest) idx).2.2) ((innerLoop maxB (doc :: rest) idx).2.1)
        (by simp only [List.length_cons] at hlt hlen ⊢; omega)
      rw [hrec, innerLoop_append]

/-- Adequacy of the structural fuel in `makeDataSections`: the emitted
sections partition the input list in order, for every batch limit. -/
theorem makeDataSections_flatten (arr : List BVal) (maxB : Nat) :
    (makeDataSections arr maxB).flatten = arr :=
  sectionsGo_flatten maxB arr.length arr 0 (Nat.le_refl _)

theorem sectionsGo_length_le (maxB : Nat) (h : 1 ≤ maxB) :
    ∀ (fuel : Nat) (rem : List BVal) (idx : Nat),
      ∀ s ∈ sectionsGo maxB fuel rem idx, s.length ≤ maxB := by
  intro fuel
  induction fuel with
  | zero => intro rem idx s hs; simp [sectionsGo] at hs
  | succ fuel ih =>
    intro rem idx s hs
    cases rem with
    | nil => simp [sectionsGo] at hs
    | cons doc rest =>
      simp only [sectionsGo, List.mem_cons] at hs
      cases hs with
      | inl h1 => rw [h1]; exact innerLoop_length_le_maxB maxB h _ _
      | inr h2 => exact ih _ _ s h2

/-! Helper lemmas about the dictionary model. -/

theorem dictGet_eq_none_iff (d : BDoc) (k : String) :
    dictGet d k = none ↔ k ∉ d.map Prod.fst := by
  induction d with
  | nil => simp [dictGet]
  | cons p rest ih =>
    obtain ⟨k2, v⟩ := p
    by_cases h : k2 = k
    · subst h
      simp [dictGet]
    · rw [show dictGet ((k2, v) :: rest) k = dictGet rest k from by simp [dictGet, h]]
      rw [ih]
      simp only [List.map_cons, List.mem_cons]
      constructor
      · intro hnm hmem
        cases hmem with
        | inl he => exact h he.symm
        | inr hm => exact hnm hm
      · intro hnm hm
        exact hnm (Or.inr hm)

theorem dictPop_eq_none_iff (d : BDoc) (k : String) :
    dictPop d k = none ↔ dictGet d k = none := by
  induction d with
  | nil => simp [dictPop, dictGet]
  | cons p rest ih =>
    obtain ⟨k2, v⟩ := p
    simp only [dictPop, dictGet]
    by_cases h : k2 = k
    · simp [h]
    · rw [if_neg h, if_neg h, ← ih]
      cases hp : dictPop rest k <;> simp

theorem dictPop_spec (d : BDoc) (k : String) :
    (d.map Prod.fst).Nodup → ∀ pr : BVal × BDoc, dictPop d k = some pr →
      dictGet d k = some pr.1 ∧ dictGet pr.2 k = none ∧
      ∀ k2, k2 ≠ k → dictGet pr.2 k2 = dictGet d k2 := by
  induction d with
  | nil => intro _ pr hp; simp [dictPop] at hp
  | cons p rest ih =>
    intro hnd pr hp
    obtain ⟨k1, v1⟩ := p
    simp only [List.map_cons, List.nodup_cons] at hnd
    obtain ⟨hk1, hndr⟩ := hnd
    by_cases h : k1 = k
    · subst h
      rw [show dictPop ((k1, v1) :: rest) k1 = some (v1, rest) from by simp [dictPop]] at hp
      injection hp with hpr
      subst hpr
      refine ⟨by simp [dictGet], (dictGet_eq_none_iff _ _).mpr hk1, ?_⟩
      intro k2 hk2
      have hne : ¬(k1 = k2) := fun hc => hk2 hc.symm
      simp [dictGet, hne]
    · rw [show dictPop ((k1, v1) :: rest) k
            = match dictPop rest k with
              | some (v2, rest2) => some (v2, (k1, v1) :: rest2)
              | none => none
          from by simp [dictPop, h]] at hp
      cases hrest : dictPop rest k with
      | none => rw [hrest] at hp; simp at hp
      | some p2 =>
        obtain ⟨v2, rest2⟩ := p2
        rw [hrest] at hp
        injection hp with hpr
        subst hpr
        obtain ⟨hg, hn, hf⟩ := ih hndr (v2, rest2) hrest
        refine ⟨by simp [dictGet, h, hg], by simpa [dictGet, h] using hn, ?_⟩
        intro k2 hk2
        by_cases h12 : k1 = k2
        · simp [dictGet, h12]
        · simp [dictGet, h12, hf k2 hk2]

theorem makeData_snd (data : BDoc) (maxB flags : Nat) (k : String) (v : BVal)
    (d2 : BDoc) (hp : dictPop data k = some (v, d2)) :
    (makeData data maxB flags (some k)).2 = d2 := by
  cases v with
  | vNull => simp [makeData, hp]
  | vInt i => simp [makeData, hp]
  | vStr s => simp [makeData, hp]
  | vDoc d => simp [makeData, hp]
  | vArr arr =>
    simp only [makeData, hp]
    split <;> rfl

/-! Helper lemmas about the command-layer reply handling. -/

theorem pyGetItem_error_eq (d : BDoc) (k : String) :
    ∀ e, pyGetItem d k = Except.error e → e = PyErr.keyError k := by
  unfold pyGetItem
  cases dictGet d k <;> intro e he <;> simp_all

theorem pyGetItem_ok_get (d : BDoc) (k : String) :
    ∀ v, pyGetItem d k = Except.ok v → dictGet d k = some v := by
  unfold pyGetItem
  cases h : dictGet d k <;> intro v hv <;> simp_all

theorem pyGetItem_error_get (d : BDoc) (k : String) :
    ∀ e, pyGetItem d k = Except.error e → dictGet d k = none := by
  unfold pyGetItem
  cases h : dictGet d k <;> intro e he <;> simp_all

theorem pyGetItem_no_db (d : BDoc) (k : String) :
    raisesDatabaseError (pyGetItem d k) = false := by
  unfold pyGetItem
  cases dictGet d k <;> simp [raisesDatabaseError]

theorem deleteResultFromResponse_no_db (reply : BDoc) :
    raisesDatabaseError (deleteResultFromResponse reply) = false := by
  unfold deleteResultFromResponse
  cases hok : pyGetItem reply "ok" with
  | error e =>
    have h2 := pyGetItem_error_eq reply "ok" e hok
    subst h2
    simp [raisesDatabaseError]
  | ok okv =>
    cases hn : pyGetItem reply "n" with
    | error e =>
      have h2 := pyGetItem_error_eq reply "n" e hn
      subst h2
      simp [raisesDatabaseError]
    | ok nv => simp [raisesDatabaseError]

theorem cursorInit_no_db (reply : BDoc) :
    raisesDatabaseError (cursorInit reply) = false := by
  unfold cursorInit
  cases hc : pyGetItem reply "cursor" with
  | error e =>
    have h2 := pyGetItem_error_eq reply "cursor" e hc
    subst h2
    simp [raisesDatabaseError]
  | ok v =>
    cases v with
    | vNull => simp [raisesDatabaseError]
    | vInt i => simp [raisesDatabaseError]
    | vStr s => simp [raisesDatabaseError]
    | vArr l => simp [raisesDatabaseError]
    | vDoc cd =>
      cases hid : pyGetItem cd "id" with
      | error e =>
        have h2 := pyGetItem_error_eq cd "id" e hid
        subst h2
        simp [raisesDatabaseError, hid]
      | ok idv =>
        cases hfb : pyGetItem cd "firstBatch" with
        | error e =>
          have h2 := pyGetItem_error_eq cd "firstBatch" e hfb
          subst h2
          simp [raisesDatabaseError, hid, hfb]
        | ok fb =>
          cases hns : pyGetItem cd "ns" with
          | error e =>
            have h2 := pyGetItem_error_eq cd "ns" e hns
            subst h2
            simp [raisesDatabaseError, hid, hfb, hns]
          | ok nsv => simp [raisesDatabaseError, hid, hfb, hns]

/-! Claim theorems. -/

/-- C1: the claimed framing round trip `decode(encode(D, S, F)) = merge(D, S)`
fails on the code as soon as the document sequence spans more than one Type-1
section.  At the concrete input `D = ("insert": "c")` with sequence
`S = ("documents", [("a": 1), ("b": 2)])` and `max_write_batch_size = 1`, the
encoder emits two Type-1 sections, and `parse_data` — which reads
`size - len(identifier) - 1` sequence bytes instead of
`size - 4 - len(identifier) - 1` — swallows the first 4 bytes of the second
section, so `bson.decode_all` fails instead of returning the merged
document. -/
theorem c1_framing_roundtrip_multisection_fails :
    Except.bind
      ((makeData
          [("insert", BVal.vStr "c"),
           ("documents", BVal.vArr [BVal.vDoc [("a", BVal.vInt 1)],
                                    BVal.vDoc [("b", BVal.vInt 2)]])]
          1 0 (some "documents")).1)
      parseData
    = Except.error PyErr.invalidBson := by rfl

/-- C2: on a cursor whose current batch is empty but whose server cursor id
is 42 (non-zero), `Cursor.next` raises CursorIsEmptyError instead of sending
`getMore`: the `while` guard and the inner `if` test the same condition, so
the refill branch is unreachable.  The oracle models a server that would
answer a `getMore` with one further document; it is never consulted. -/
theorem c2_cursor_next_empty_batch_raises :
    cursorNextGo
      (fun _ _ =>
        [("cursor", BVal.vDoc
            [("id", BVal.vInt 0),
             ("nextBatch", BVal.vArr [BVal.vDoc [("x", BVal.vInt 9)]]),
             ("ns", BVal.vStr "db.c")]),
         ("ok", BVal.vInt 1)])
      5
      [("id", BVal.vInt 42), ("nextBatch", BVal.vArr []),
       ("ns", BVal.vStr "db.c")]
    = Except.error PyErr.cursorIsEmptyError := by rfl

/-- C3: in the event trace of one `_send_and_wait` call the socket write of
the request (inside the awaited `_send`) is the first event, and the waiter
insertion (inside `_wait_for_response`) only comes second — the waiter is
inserted after, not before, the request bytes reach the socket. -/
theorem c3_waiter_inserted_after_first_write :
    writeRequestPos (sendAndWaitEvents 1) 1 = 0 ∧
    insertWaiterPos (sendAndWaitEvents 1) 1 = 1 := ⟨rfl, rfl⟩

/-- C4: when the reader loop's `parse_header` raises (socket error or EOF)
while request id 7 has a pending waiter, `_keep_reading` terminates with
that error but the waiter is left pending — it is not failed with the
error, so its `send_and_wait` caller waits forever. -/
theorem c4_reader_error_leaves_waiter_pending :
    keepReading [Except.error PyErr.incompleteReadError]
      [((7 : Int), WaiterOutcome.pending)]
    = ([((7 : Int), WaiterOutcome.pending)], some PyErr.incompleteReadError) := rfl

/-- C5 counterexample: the server reply `("ok": 0, "n": 3)` has `ok != 1`,
yet `insert_many` raises no DatabaseError — it returns `reply["n"]`. -/
theorem c5_counterexample_insert_many_ignores_ok :
    okNotOne [("ok", BVal.vInt 0), ("n", BVal.vInt 3)] = true ∧
    insertManyRespond [("ok", BVal.vInt 0), ("n", BVal.vInt 3)]
      = Except.ok (BVal.vInt 3) := ⟨rfl, rfl⟩

/-- C5 (amended): among the collection commands, exactly `delete`, `drop`
and `rename` raise `DatabaseError(reply)` if and only if the reply carries
an `ok` field different from 1; `insert_many` returns `reply["n"]` and
`find` builds a cursor from `reply["cursor"]`, neither ever inspecting `ok`
nor raising DatabaseError. -/
theorem c5_ok_check_coverage (reply : BDoc) :
    raisesDatabaseError (deleteRespond reply) = okNotOne reply ∧
    raisesDatabaseError (dropRespond reply) = okNotOne reply ∧
    raisesDatabaseError (renameRespond reply) = okNotOne reply ∧
    raisesDatabaseError (insertManyRespond reply) = false ∧
    raisesDatabaseError (findRespond reply) = false := by
  refine ⟨?_, ?_, ?_, pyGetItem_no_db reply "n", cursorInit_no_db reply⟩
  · unfold deleteRespond
    cases hok : pyGetItem reply "ok" with
    | error e =>
      have h2 := pyGetItem_error_eq reply "ok" e hok
      have h3 := pyGetItem_error_get reply "ok" e hok
      subst h2
      simp [raisesDatabaseError, okNotOne, h3]
    | ok okv =>
      have h3 := pyGetItem_ok_get reply "ok" okv hok
      by_cases hne : bvalNeOne okv
      · simp [hne, raisesDatabaseError, okNotOne, h3]
      · simp only [if_neg hne, deleteResultFromResponse_no_db reply, okNotOne, h3]
        simp only [Bool.not_eq_true] at hne
        simp [hne]
  · unfold dropRespond
    cases hok : pyGetItem reply "ok" with
    | error e =>
      have h2 := pyGetItem_error_eq reply "ok" e hok
      have h3 := pyGetItem_error_get reply "ok" e hok
      subst h2
      simp [raisesDatabaseError, okNotOne, h3]
    | ok okv =>
      have h3 := pyGetItem_ok_get reply "ok" okv hok
      by_cases hne : bvalNeOne okv
      · simp [hne, raisesDatabaseError, okNotOne, h3]
      · simp only [if_neg hne, okNotOne, h3]
        simp only [Bool.not_eq_true] at hne
        simp [hne, raisesDatabaseError]
  · unfold renameRespond
    cases hok : pyGetItem reply "ok" with
    | error e =>
      have h2 := pyGetItem_error_eq reply "ok" e hok
      have h3 := pyGetItem_error_get reply "ok" e hok
      subst h2
      simp [raisesDatabaseError, okNotOne, h3]
    | ok okv =>
      have h3 := pyGetItem_ok_get reply "ok" okv hok
      by_cases hne : bvalNeOne okv
      · simp [hne, raisesDatabaseError, okNotOne, h3]
      · simp only [if_neg hne, okNotOne, h3]
        simp only [Bool.not_eq_true] at hne
        simp [hne, raisesDatabaseError]

/-- C5 witness: the amended statement evaluated at the concrete reply
`("ok": 1, "n": 2)`. -/
theorem c5_ok_check_coverage_witness :
    raisesDatabaseError (deleteRespond [("ok", BVal.vInt 1), ("n", BVal.vInt 2)])
      = okNotOne [("ok", BVal.vInt 1), ("n", BVal.vInt 2)] ∧
    raisesDatabaseError (dropRespond [("ok", BVal.vInt 1), ("n", BVal.vInt 2)])
      = okNotOne [("ok", BVal.vInt 1), ("n", BVal.vInt 2)] ∧
    raisesDatabaseError (renameRespond [("ok", BVal.vInt 1), ("n", BVal.vInt 2)])
      = okNotOne [("ok", BVal.vInt 1), ("n", BVal.vInt 2)] ∧
    raisesDatabaseError (insertManyRespond [("ok", BVal.vInt 1), ("n", BVal.vInt 2)])
      = false ∧
    raisesDatabaseError (findRespond [("ok", BVal.vInt 1), ("n", BVal.vInt 2)])
      = false :=
  c5_ok_check_coverage [("ok", BVal.vInt 1), ("n", BVal.vInt 2)]

/-- C6: with `max_write_batch_size = 2` and five documents the encoder does
NOT emit sections of sizes 2, 2, 1: because the inner loop breaks when the
running index into the whole list reaches the limit, it emits four sections
of sizes 2, 1, 1, 1. -/
theorem c6_batch_split_sizes :
    (makeDataSections (List.replicate 5 (BVal.vDoc [("a", BVal.vInt 1)])) 2).map
      List.length = [2, 1, 1, 1] := rfl

/-- C7: for every document list and every `max_write_batch_size >= 1`, no
Type-1 section emitted by `make_data` holds more than `max_write_batch_size`
documents. -/
theorem c7_batching_bound (arr : List BVal) (maxB : Nat) (h : 1 ≤ maxB) :
    ∀ s ∈ makeDataSections arr maxB, s.length ≤ maxB := by
  intro s hs
  exact sectionsGo_length_le maxB h arr.length arr 0 s hs

/-- C7 witness: the bound evaluated for three documents and limit 2. -/
theorem c7_batching_bound_witness :
    1 ≤ 2 ∧ ∀ s ∈ makeDataSections
      (List.replicate 3 (BVal.vDoc [("a", BVal.vInt 1)])) 2, s.length ≤ 2 :=
  ⟨by decide, c7_batching_bound (List.replicate 3 (BVal.vDoc [("a", BVal.vInt 1)])) 2 (by decide)⟩

/-- C8 counterexample: an OP_MSG payload whose body section is followed by
the unknown section kind byte 5 is not rejected — `parse_data` returns the
body as if the byte were not there. -/
theorem c8_counterexample_kind5_not_rejected :
    parseData (u32le 0 ++ 0 :: encodeDoc [("a", BVal.vInt 1)] ++ [5])
    = Except.ok (some [("a", BVal.vInt 1)]) := rfl

/-- C8 (amended): a section kind byte other than 0 and 1 is silently
skipped: the scanning loop of `parse_data` consumes the kind byte, changes
nothing, and continues with the following byte — no error of any kind is
raised for the unknown kind. -/
theorem c8_unknown_kind_skipped (fuel : Nat) (kind : Byte) (rest : List Byte)
    (body : Option BDoc) (h0 : kind ≠ 0) (h1 : kind ≠ 1) :
    scanGo body (fuel + 1) (kind :: rest) = scanGo body fuel rest := by
  simp [scanGo, h0, h1]

/-- C8 witness: the skipping step evaluated on kind byte 5. -/
theorem c8_unknown_kind_skipped_witness :
    (5 : Byte) ≠ 0 ∧ (5 : Byte) ≠ 1 ∧
    scanGo (some []) 2 [5] = scanGo (some []) 1 [] :=
  ⟨by decide, by decide, c8_unknown_kind_skipped 1 5 [] (some []) (by decide) (by decide)⟩

/-- C9 counterexample: with the snappy library absent at runtime,
`pick_compressor ["snappy"]` still returns the snappy implementation with
wire id 1 — a compressor whose library is not available locally. -/
theorem c9_counterexample_unavailable_picked :
    pickCompressor ["snappy"] = (CompressorKind.snappy, 1) ∧
    compressorAvailable ⟨false, false⟩ CompressorKind.snappy = false := ⟨rfl, rfl⟩

/-- C9 (amended): `pick_compressor` returns the registry entry of the first
server-supported name present in the static `compression_registry`,
irrespective of local availability, and falls back to `(noop, 0)` when no
name is recognised. -/
theorem c9_pick_compressor_first_registered (names : List String) :
    pickCompressor names
    = (names.findSome? registryLookup).getD (CompressorKind.noop, 0) := by
  induction names with
  | nil => rfl
  | cons n rest ih =>
    unfold pickCompressor
    cases h : registryLookup n with
    | some entry => simp [List.findSome?, h]
    | none => simp [List.findSome?, h, ih]

/-- C9 witness: the amended statement evaluated on the list
`["bogus", "zstd"]`. -/
theorem c9_pick_compressor_first_registered_witness :
    pickCompressor ["bogus", "zstd"]
    = ((["bogus", "zstd"].findSome? registryLookup).getD (CompressorKind.noop, 0)) :=
  c9_pick_compressor_first_registered ["bogus", "zstd"]

/-- C10: for every dictionary with distinct keys, calling `make_data` with
`list_key = k` raises KeyError (leaving the dictionary untouched) when `k`
is absent; and when `k` is present the caller's dictionary afterwards no
longer contains `k` while every other key is bound exactly as before. -/
theorem c10_make_data_pops_list_key (data : BDoc) (maxB flags : Nat) (k : String)
    (hnd : (data.map Prod.fst).Nodup) :
    (dictGet data k = none →
      makeData data maxB flags (some k) = (.error (.keyError k), data)) ∧
    ((dictGet data k).isSome →
      dictGet (makeData data maxB flags (some k)).2 k = none ∧
      ∀ k2, k2 ≠ k → dictGet (makeData data maxB flags (some k)).2 k2 = dictGet data k2) := by
  constructor
  · intro hget
    have hp : dictPop data k = none := (dictPop_eq_none_iff data k).2 hget
    simp [makeData, hp]
  · intro hsome
    cases h : dictPop data k with
    | none =>
      rw [dictPop_eq_none_iff data k] at h
      rw [h] at hsome
      simp at hsome
    | some pr =>
      obtain ⟨v, d2⟩ := pr
      obtain ⟨hg, hn, hf⟩ := dictPop_spec data k hnd (v, d2) h
      rw [makeData_snd data maxB flags k v d2 h]
      exact ⟨hn, hf⟩

/-- C10 witness: the frame property evaluated on the dictionary
`("insert": "c", "documents": [])` with `k = "documents"`. -/
theorem c10_make_data_pops_list_key_witness :
    ((([("insert", BVal.vStr "c"), ("documents", BVal.vArr [])] : BDoc).map
        Prod.fst).Nodup) ∧
    (dictGet [("insert", BVal.vStr "c"), ("documents", BVal.vArr [])]
        "documents").isSome ∧
    dictGet (makeData [("insert", BVal.vStr "c"), ("documents", BVal.vArr [])]
        1000 0 (some "documents")).2 "documents" = none :=
  ⟨by simp, by rfl,
    ((c10_make_data_pops_list_key
        [("insert", BVal.vStr "c"), ("documents", BVal.vArr [])]
        1000 0 "documents" (by simp)).2 (by rfl)).1⟩

end Amongo